import Mathlib

/-!
Verification development for the `go-http-client` library: a registry of
named HTTP client profiles with retry/backoff/circuit-breaker policies.

The Go source is shallowly embedded as follows.

* Go maps (`map[string]T`) are association lists with a later-write-wins
  insert; Go map references (aliasing of `map[string]string` values) are
  modelled by a heap: a list of header maps addressed by `Nat` references.
* `interface \x7b \x7d` configuration values are the inductive `GoVal`; the
  spf13/cast coercions used by the option resolver are `toIntE`,
  `toStringE`, `toStringMapE` and `toStringMapString` below.  Go float64
  values are carried as rationals; the exact decimal rendering of a float
  by `cast.ToString` is abstracted (no claim depends on it).
* `time.Duration` values are `Int` nanosecond counts with 64-bit wraparound
  applied at the multiplication sites where Go can overflow; Go integer
  division (truncation toward zero) is `Int.div`.
* External collaborators (the heimdall execution engines, `http.NewRequest`
  validation, the wall clock) are parameters of the dispatch environment
  `Env`; the heimdall client constructors are embedded as the data they are
  handed (`HeimdallClient`), since only that parameter contract is in scope.
* `github.com/google/uuid` `NewString` is modelled as an injective fresh
  supply threaded through dispatch (`UuidGen`), reflecting the spec: a
  freshly generated random identifier, distinct across repeated calls.
* Go runtime panics (nil map/pointer dereference, method call on a nil
  interface) are the `DOut.panic` outcome, distinct from a returned error.
-/

namespace GoHttp

/-! ## Association-list maps (Go map semantics: unique keys, last write wins) -/

/-- Lookup of a string key in an association list (Go map read). -/
def alLookup {α : Type} (l : List (String × α)) (k : String) : Option α :=
  match l.find? (fun p => p.1 == k) with
  | some p => some p.2
  | none => none

/-- Insert with replacement (Go map write: `m[k] = v`). -/
def alInsert {α : Type} (l : List (String × α)) (k : String) (v : α) :
    List (String × α) :=
  if l.any (fun p => p.1 == k) then
    l.map (fun p => if p.1 == k then (k, v) else p)
  else
    l ++ [(k, v)]

/-- A Go `map[string]string` value (headers, query parameters). -/
abbrev HMap := List (String × String)

/-- Keys of a map are pairwise distinct (every real Go map satisfies this). -/
def KeysNodup (m : HMap) : Prop := (m.map Prod.fst).Nodup

instance (m : HMap) : Decidable (KeysNodup m) := by
  unfold KeysNodup; infer_instance

/-- Number of entries of `m` carrying key `k`. -/
def hmCount (m : HMap) (k : String) : Nat :=
  (m.filter (fun p => p.1 == k)).length

/-! ## The heap of shared header maps (Go map reference semantics) -/

/-- The store of allocated `map[string]string` objects; a reference is an
index into this list.  Reads of an unallocated reference yield the empty
map (never reached from well-formed states). -/
abbrev Heap := List HMap

def hGet (h : Heap) (r : Nat) : HMap := (h.get? r).getD []

def hSet (h : Heap) (r : Nat) (m : HMap) : Heap := h.set r m

/-- Allocate a fresh map object, returning the new heap and its reference. -/
def hAlloc (h : Heap) (m : HMap) : Heap × Nat := (h ++ [m], h.length)

/-! ## Untyped configuration values and the spf13/cast coercions -/

/-- A value occurring in a `map[string]interface\x7b\x7d` configuration map. -/
inductive GoVal : Type where
  | str (s : String)
  | int (n : Int)
  | bool (b : Bool)
  | float (q : ℚ)
  | map (m : List (String × GoVal))
  | nil

/-- A Go `map[string]interface\x7b\x7d` configuration map. -/
abbrev GoMap := List (String × GoVal)

/-- Truncation of a rational toward zero (Go `int64(f)` on a float64). -/
def ratTrunc (q : ℚ) : Int := Int.tdiv q.num (Int.ofNat q.den)

/-- cast.ToIntE: int, bool, parseable string, float (truncated) and nil
coerce; maps do not.  String parsing is modelled by `String.toInt?`. -/
def toIntE : GoVal → Except String Int
  | .int n => .ok n
  | .bool b => .ok (if b then 1 else 0)
  | .str s =>
    match s.toInt? with
    | some n => .ok n
    | none => .error "unable to cast to int"
  | .float q => .ok (ratTrunc q)
  | .nil => .ok 0
  | .map _ => .error "unable to cast to int"

/-- Rendering of a rational carried for a Go float64.  The precise decimal
formatting of `cast.ToString` is abstracted; no claim depends on it. -/
def ratRepr (q : ℚ) : String :=
  toString q.num ++ "/" ++ toString (Int.ofNat q.den)

/-- cast.ToStringE: strings, ints, bools, floats and nil coerce; maps do
not. -/
def toStringE : GoVal → Except String String
  | .str s => .ok s
  | .int n => .ok (toString n)
  | .bool b => .ok (if b then "true" else "false")
  | .float q => .ok (ratRepr q)
  | .nil => .ok ""
  | .map _ => .error "unable to cast to string"

/-- cast.ToString: the error-swallowing form (empty string on failure). -/
def goToString (v : GoVal) : String :=
  match toStringE v with
  | .ok s => s
  | .error _ => ""

/-- cast.ToStringMapE: only map values coerce. -/
def toStringMapE : GoVal → Except String GoMap
  | .map m => .ok m
  | _ => .error "unable to cast to map"

/-- cast.ToStringMapString: stringify every value of a map (building a new
map object, as the Go library does). -/
def toStringMapString (m : GoMap) : HMap :=
  m.foldl (fun acc p => alInsert acc p.1 (goToString p.2)) []

/-! ## The option resolver (requestconfig.go) -/

/-- getConfigOptionInt: look up `key` and coerce to int; missing keys and
failed coercions are errors (the Go value component is then 0). -/
def getConfigOptionInt (options : GoMap) (key : String) : Except String Int :=
  match alLookup options key with
  | some v => toIntE v
  | none => .error ("missing " ++ key)

/-- getConfigOptionString (value "" on error). -/
def getConfigOptionString (options : GoMap) (key : String) :
    Except String String :=
  match alLookup options key with
  | some v => toStringE v
  | none => .error ("missing " ++ key)

/-- getConfigOptionMap (value nil on error). -/
def getConfigOptionMap (options : GoMap) (key : String) :
    Except String GoMap :=
  match alLookup options key with
  | some v => toStringMapE v
  | none => .error ("missing " ++ key)

/-! ## Durations and the constants of constants.go -/

/-- Wrap an integer into the int64 range (Go arithmetic overflow). -/
def wrap64 (x : Int) : Int := (x + 2 ^ 63) % 2 ^ 64 - 2 ^ 63

/-- `time.Duration(n) * time.Millisecond`: n milliseconds as int64
nanoseconds, with Go overflow semantics. -/
def durMs (n : Int) : Int := wrap64 (n * 1000000)

def defaultKeepAlive : Int := 30 * 1000000000

def defaultIdleConnectionTimeout : Int := 90 * 1000000000

def defaultSleepWindowInMillis : Int := 5000

def requestIDHeader : String := "X-requestId"

def idParam : String := "id"

/-! ## Backoff policy (fields as consumed by getRetrier in client.go; the
constructor is in the backoffpolicy.go file of the repository, absent from
src/, and is modelled from the spec further below) -/

structure ConstantBackoffCfg where
  interval : Int
  maximumJitterInterval : Int
deriving DecidableEq

structure ExponentialBackoffCfg where
  initialTimeout : Int
  maxTimeout : Int
  exponentFactor : ℚ
  maximumJitterInterval : Int
deriving DecidableEq

structure BackoffPolicy where
  constantBackoff : Option ConstantBackoffCfg
  exponentialBackoff : Option ExponentialBackoffCfg
deriving DecidableEq

/-- Modelled from the spec: `NewBackoffPolicy` lives in backoffpolicy.go,
which is absent from src/.  Per the spec it looks for the constant sub-map
first and builds Constant when present and resolvable; otherwise it looks
for the exponential sub-map; with neither, the policy is None (both fields
nil).  Missing numeric fields default to zero.  Sub-map keys follow the
external-interface section: `constantbackoff` with intervalinmillis and
maxjitterintervalinmillis, `exponentialbackoff` with initialtimeoutinmillis,
maxtimeoutinmillis, exponentfactor and maxjitterintervalinmillis. -/
def NewBackoffPolicy (m : GoMap) : BackoffPolicy :=
  match getConfigOptionMap m "constantbackoff" with
  | .ok cm =>
    { constantBackoff := some
        { interval := durMs ((getConfigOptionInt cm "intervalinmillis").toOption.getD 0)
          maximumJitterInterval :=
            durMs ((getConfigOptionInt cm "maxjitterintervalinmillis").toOption.getD 0) }
      exponentialBackoff := none }
  | .error _ =>
    match getConfigOptionMap m "exponentialbackoff" with
    | .ok em =>
      { constantBackoff := none
        exponentialBackoff := some
          { initialTimeout :=
              durMs ((getConfigOptionInt em "initialtimeoutinmillis").toOption.getD 0)
            maxTimeout := durMs ((getConfigOptionInt em "maxtimeoutinmillis").toOption.getD 0)
            exponentFactor :=
              (match alLookup em "exponentfactor" with
               | some (.float q) => q
               | some (.int n) => (n : ℚ)
               | _ => 0)
            maximumJitterInterval :=
              durMs ((getConfigOptionInt em "maxjitterintervalinmillis").toOption.getD 0) } }
    | .error _ => { constantBackoff := none, exponentialBackoff := none }

/-! ## Hystrix config (hystrixconfig.go) -/

structure HystrixConfig where
  hystrixTimeout : Int := 0
  maxConcurrentRequests : Int := 0
  errorPercentThreshold : Int := 0
  sleepWindowInMillis : Int := 0
  requestVolumeThreshold : Int := 0
  /-- The fallback callback is external behaviour; only its presence is
  modelled. -/
  fallback : Bool := false
deriving DecidableEq

/-- NewHystrixConfig, line for line from hystrixconfig.go. -/
def NewHystrixConfig (configMap : GoMap) : HystrixConfig :=
  { hystrixTimeout :=
      match getConfigOptionInt configMap "hystrixtimeoutinmillis" with
      | .ok v => durMs v
      | .error _ => 0
    sleepWindowInMillis :=
      match getConfigOptionInt configMap "sleepwindowinmillis" with
      | .ok v => v
      | .error _ => defaultSleepWindowInMillis
    maxConcurrentRequests := (getConfigOptionInt configMap "maxconcurrentrequests").toOption.getD 0
    errorPercentThreshold := (getConfigOptionInt configMap "errorpercentthreshold").toOption.getD 0
    requestVolumeThreshold :=
      (getConfigOptionInt configMap "requestvolumethreshold").toOption.getD 0
    fallback := false }

/-! ## Request profile (requestconfig.go) -/

/-- The default transport built by NewRequestConfig.  Function-typed Go
fields (proxy resolver, dial) are represented by the data they close
over. -/
structure Transport where
  proxyFromEnvironment : Bool
  dialTimeout : Int
  dialKeepAlive : Int
  forceAttemptHTTP2 : Bool
  maxIdleConns : Int
  idleConnTimeout : Int
  tlsHandshakeTimeout : Int
  expectContinueTimeout : Int
  maxIdleConnsPerHost : Int
  /-- Minimum TLS version of the tls config, e.g. some 12 for "1.2"; none
  when no tls config is set. -/
  tlsMinVersion : Option Int
deriving DecidableEq

structure RequestConfig where
  name : String
  method : String := ""
  url : String := ""
  timeout : Int := 0
  connectTimeout : Int := 0
  keepAlive : Int := 0
  maxIdleConnections : Int := 0
  idleConnectionTimeout : Int := 0
  tlsHandshakeTimeout : Int := 0
  expectContinueTimeout : Int := 0
  proxyURL : String := ""
  retryCount : Int := 0
  backoffPolicy : Option BackoffPolicy := none
  hystrixConfig : Option HystrixConfig := none
  transport : Option Transport := none
  /-- The static header map is a Go map reference (nil when absent). -/
  headers : Option Nat := none
  /-- The redirect-policy callback is external; only presence is kept. -/
  checkRedirect : Bool := false
deriving DecidableEq

/-- NewRequestConfig, line for line from requestconfig.go.  `gomaxprocs`
stands for the runtime value `runtime.GOMAXPROCS(0)`; the headers map is
allocated on the heap (cast.ToStringMapString builds a fresh map). -/
def NewRequestConfig (gomaxprocs : Int) (name : String)
    (configMap : Option GoMap) (h : Heap) : RequestConfig × Heap :=
  match configMap with
  | none => ({ name := name }, h)
  | some cm =>
    let method := (getConfigOptionString cm "method").toOption.getD ""
    let url := (getConfigOptionString cm "url").toOption.getD ""
    let timeout : Int :=
      match getConfigOptionInt cm "timeoutinmillis" with
      | .ok t => durMs t
      | .error _ => 0
    let connectTimeout : Int :=
      match getConfigOptionInt cm "connecttimeoutinmillis" with
      | .ok ct => durMs ct
      | .error _ => Int.tdiv timeout 10
    let keepAlive : Int :=
      match getConfigOptionInt cm "keepaliveinmillis" with
      | .ok v => durMs v
      | .error _ => defaultKeepAlive
    let maxIdleConnections : Int :=
      match getConfigOptionInt cm "maxidleconnections" with
      | .ok v => v
      | .error _ => gomaxprocs + 1
    let idleConnectionTimeout : Int :=
      match getConfigOptionInt cm "idleconnectiontimeoutinmillis" with
      | .ok v => durMs v
      | .error _ => defaultIdleConnectionTimeout
    let tlsHandshakeTimeout : Int :=
      match getConfigOptionInt cm "tlshandshaketimeoutinmillis" with
      | .ok v => durMs v
      | .error _ => 0
    let expectContinueTimeout : Int :=
      match getConfigOptionInt cm "expectcontinuetimeoutinmillis" with
      | .ok v => durMs v
      | .error _ => 0
    let proxyURL := (getConfigOptionString cm "proxyurl").toOption.getD ""
    let retryCount : Int :=
      match getConfigOptionInt cm "retrycount" with
      | .ok v => v
      | .error _ => 1
    let backoffPolicy : Option BackoffPolicy :=
      match getConfigOptionMap cm "backoffpolicy" with
      | .ok m => some (NewBackoffPolicy m)
      | .error _ => none
    let hystrixConfig : Option HystrixConfig :=
      match getConfigOptionMap cm "hystrixconfig" with
      | .ok m => some (NewHystrixConfig m)
      | .error _ => none
    let headersAndHeap : Option Nat × Heap :=
      match getConfigOptionMap cm "headers" with
      | .ok m =>
        let ar := hAlloc h (toStringMapString m)
        (some ar.2, ar.1)
      | .error _ => (none, h)
    let tlsMinVersion := (getConfigOptionString cm "tlsminversion").toOption.getD ""
    let tlsConfig : Option Int :=
      match tlsMinVersion with
      | "1.0" => some 10
      | "1.1" => some 11
      | "1.2" => some 12
      | "1.3" => some 13
      | _ => none
    let tr : Transport :=
      { proxyFromEnvironment := true
        dialTimeout := connectTimeout
        dialKeepAlive := keepAlive
        forceAttemptHTTP2 := true
        maxIdleConns := maxIdleConnections
        idleConnTimeout := idleConnectionTimeout
        tlsHandshakeTimeout := tlsHandshakeTimeout
        expectContinueTimeout := expectContinueTimeout
        maxIdleConnsPerHost := gomaxprocs + 1
        tlsMinVersion := tlsConfig }
    ({ name := name
       method := method
       url := url
       timeout := timeout
       connectTimeout := connectTimeout
       keepAlive := keepAlive
       maxIdleConnections := maxIdleConnections
       idleConnectionTimeout := idleConnectionTimeout
       tlsHandshakeTimeout := tlsHandshakeTimeout
       expectContinueTimeout := expectContinueTimeout
       proxyURL := proxyURL
       retryCount := retryCount
       backoffPolicy := backoffPolicy
       hystrixConfig := hystrixConfig
       transport := some tr
       headers := headersAndHeap.1
       checkRedirect := false }, headersAndHeap.2)

/-! ## Retriers and execution engines (client.go) -/

/-- A heimdall backoff object, embedded as the data handed to the heimdall
constructors. -/
inductive Backoff : Type where
  | constantBackoff (interval maximumJitterInterval : Int)
  | exponentialBackoff (initialTimeout maxTimeout : Int) (exponentFactor : ℚ)
      (maximumJitterInterval : Int)
deriving DecidableEq

/-- heimdall.Retriable: a retrier around a backoff, or the no-retry kind. -/
inductive Retriable : Type where
  | retrier (b : Backoff)
  | noRetrier
deriving DecidableEq

/-- getRetrier, line for line from client.go: constant backoff wins when
present, else exponential, else the no-retrier. -/
def getRetrier (requestConfig : RequestConfig) : Retriable :=
  match requestConfig.backoffPolicy with
  | some bp =>
    match bp.constantBackoff with
    | some cb => .retrier (.constantBackoff cb.interval cb.maximumJitterInterval)
    | none =>
      match bp.exponentialBackoff with
      | some eb =>
        .retrier (.exponentialBackoff eb.initialTimeout eb.maxTimeout
          eb.exponentFactor eb.maximumJitterInterval)
      | none => .noRetrier
  | none => .noRetrier

/-- The transport-bound base client built by getClient/setProxy,
embedded as the data handed to it (cookie jar mechanics are external). -/
structure DoerCfg where
  timeout : Int
  transport : Option Transport
  checkRedirect : Bool
  proxyURL : String
deriving DecidableEq

def getClient (requestConfig : RequestConfig) : DoerCfg :=
  { timeout := requestConfig.timeout
    transport := requestConfig.transport
    checkRedirect := requestConfig.checkRedirect
    proxyURL := requestConfig.proxyURL }

/-- A heimdall execution engine: the plain retrying client or the
hystrix-wrapped client, each carrying exactly the options the heimdall
constructors receive in buildHTTPClient. -/
inductive HeimdallClient : Type where
  | httpClient (doer : DoerCfg) (timeout : Int) (retryCount : Int)
      (retrier : Retriable)
  | hystrixClient (doer : DoerCfg) (commandName : String) (timeout : Int)
      (retryCount : Int) (retrier : Retriable) (hystrixTimeout : Int)
      (maxConcurrentRequests : Int) (errorPercentThreshold : Int)
      (sleepWindow : Int) (requestVolumeThreshold : Int) (fallback : Bool)
deriving DecidableEq

/-- buildHTTPClient from client.go: hystrix client iff hystrixConfig is
present, keyed by the profile name as the command name. -/
def buildHTTPClient (requestConfig : RequestConfig) : HeimdallClient :=
  match requestConfig.hystrixConfig with
  | none =>
    .httpClient (getClient requestConfig) requestConfig.timeout
      requestConfig.retryCount (getRetrier requestConfig)
  | some hc =>
    .hystrixClient (getClient requestConfig) requestConfig.name
      requestConfig.timeout requestConfig.retryCount (getRetrier requestConfig)
      hc.hystrixTimeout hc.maxConcurrentRequests hc.errorPercentThreshold
      hc.sleepWindowInMillis hc.requestVolumeThreshold hc.fallback

/-- The kind of an engine, for statements independent of threshold values. -/
inductive EngineKind : Type where
  | plain
  | breaker
deriving DecidableEq

def engineKind : HeimdallClient → EngineKind
  | .httpClient _ _ _ _ => .plain
  | .hystrixClient _ _ _ _ _ _ _ _ _ _ _ => .breaker

/-! ## The client registry (client.go) -/

/-- ClientRequestMapping; both fields are nil in the zero value a Go map
read yields for an unregistered name. -/
structure ClientRequestMapping where
  heimdallClient : Option HeimdallClient
  requestConfig : Option RequestConfig
deriving DecidableEq

/-- Logger and Metrics are external callbacks; observers are modelled by
presence tags and by the event records the dispatcher hands them. -/
abbrev Logger := Nat

abbrev MetricsTag := Nat

structure Client where
  httpClients : List (String × ClientRequestMapping)
  /-- sync.Once state for the logger slot (true once consumed). -/
  ol : Bool := false
  l : Option Logger := none
  /-- sync.Once state for the metrics slot. -/
  om : Bool := false
  m : Option MetricsTag := none
deriving DecidableEq

/-- ConfigureHTTPClient: one engine per non-nil RequestConfig, keyed by the
profile name (a later duplicate name overwrites an earlier one, as for any
Go map write). -/
def ConfigureHTTPClient (requestConfigs : List (Option RequestConfig)) : Client :=
  { httpClients :=
      requestConfigs.foldl
        (fun acc rc? =>
          match rc? with
          | none => acc
          | some rc =>
            alInsert acc rc.name
              { heimdallClient := some (buildHTTPClient rc), requestConfig := some rc })
        [] }

/-- WithLogger: a nil argument is ignored entirely; otherwise the once
guard runs the assignment at most one time. -/
def withLogger (c : Client) (l : Option Logger) : Client :=
  match l with
  | none => c
  | some lg => if c.ol then c else { c with l := some lg, ol := true }

/-- WithMetrics, symmetric to WithLogger. -/
def withMetrics (c : Client) (m : Option MetricsTag) : Client :=
  match m with
  | none => c
  | some mt => if c.om then c else { c with m := some mt, om := true }

/-! ## Call requests and contexts -/

/-- A value stored in a context (for ctx.Value lookups). -/
inductive CtxVal : Type where
  | str (s : String)
  | int (n : Int)
  | other
deriving DecidableEq

/-- A context.Context, reduced to the key-value view ctx.Value exposes. -/
structure GoContext where
  vals : List (String × CtxVal)
deriving DecidableEq

def ctxValue (c : GoContext) (k : String) : Option CtxVal := alLookup c.vals k

/-- The Call Request object (request.go is absent from src/; the fields are
exactly those client.go reads and writes: name, method, url, queryParams,
headerParams, body, ctx).  Header and query maps are heap references; the
body is an opaque stream tag. -/
structure Request where
  name : String
  method : String := ""
  url : String := ""
  queryParams : Option Nat := none
  headerParams : Option Nat := none
  body : Option Nat := none
  ctx : Option GoContext := none
deriving DecidableEq

/-- Modelled from the spec: `Request.SetHeaderParam` lives in request.go,
which is absent from src/.  It writes one header key on the call: into the
existing header map through its reference when one is present (maps are
shared, not copied), allocating a fresh map first when the field is nil —
the spec requires the correlation header to be present on every outgoing
request, including calls that carry no header map. -/
def setHeaderParam (h : Heap) (r : Request) (k v : String) : Heap × Request :=
  match r.headerParams with
  | none =>
    let ar := hAlloc h [(k, v)]
    (ar.1, { r with headerParams := some ar.2 })
  | some ref => (hSet h ref (alInsert (hGet h ref) k v), r)

/-! ## The uuid collaborator -/

/-- Modelled from the spec: `uuid.NewString` (external library) returns a
freshly generated random identifier, distinct across repeated calls.  It is
embedded as an injective fresh supply: the n-th draw is a string of length
n + 1, so distinct draws are distinct strings. -/
structure UuidGen where
  counter : Nat
deriving DecidableEq

def uuidString (n : Nat) : String := String.mk (List.replicate (n + 1) 'u')

def uuidNewString (g : UuidGen) : String × UuidGen :=
  (uuidString g.counter, ⟨g.counter + 1⟩)

/-- getRequestID, line for line from client.go: the context value under the
well-known key when present and string-typed, else a fresh identifier. -/
def getRequestID (ctx : Option GoContext) (g : UuidGen) : String × UuidGen :=
  match ctx with
  | some c =>
    match ctxValue c idParam with
    | some v =>
      match v with
      | .str s => (s, g)
      | _ => uuidNewString g
    | none => uuidNewString g
  | none => uuidNewString g

/-! ## The dispatch pipeline (Client.Request in client.go) -/

/-- The outgoing wire request getRequest builds, as handed to the engine.
The query list holds the parameters appended to the URL query; header
canonicalization performed by net/http is not modelled. -/
structure WireRequest where
  method : String
  url : String
  ctxAttached : Bool
  query : HMap
  headers : HMap
  body : Option Nat
deriving DecidableEq

structure Response where
  statusCode : Int
deriving DecidableEq

structure Metric where
  status : Int
  latencyInMillis : Int
deriving DecidableEq

/-- The externally determined behaviour a dispatch runs against: the engine
(network, retries, breaker) as a function of the wire request, the
success/failure of http.NewRequest on a method/url pair, and the elapsed
time the clock reports. -/
structure Env where
  doer : HeimdallClient → WireRequest → Option Response × Option String
  httpNewRequestFails : String → String → Option String
  elapsedMs : Int

/-- Outcome of one dispatch: a Go runtime panic, or the returned
(response, error) pair. -/
inductive DOut : Type where
  | panic (msg : String)
  | ret (response : Option Response) (error : Option String)
deriving DecidableEq

def nilDerefMsg : String :=
  "runtime error: invalid memory address or nil pointer dereference"

/-- Everything observable about one Client.Request run: the outcome, the
final call object and heap, the advanced uuid supply, the wire request (if
built), whether the engine Do was invoked, and the observer events. -/
structure DispatchResult where
  outcome : DOut
  request : Request
  heap : Heap
  gen : UuidGen
  wire : Option WireRequest
  doInvoked : Bool
  logEvents : List String
  metricEvents : List (String × Metric)

/-- Go map read with zero value (an unregistered name yields a mapping
whose two pointers are nil). -/
def lookupMapping (l : List (String × ClientRequestMapping)) (n : String) :
    ClientRequestMapping :=
  match alLookup l n with
  | some m => m
  | none => { heimdallClient := none, requestConfig := none }

/-- The three default-filling guards at the top of Client.Request.  Each
guard dereferences the requestConfig pointer only when its condition holds;
with a nil pointer that dereference panics (Except.error carries the panic
message). -/
def fillFromConfig (cfg : Option RequestConfig) (r : Request) :
    Except String Request := do
  let r ←
    if r.method = "" then
      match cfg with
      | none => Except.error nilDerefMsg
      | some c => pure { r with method := c.method }
    else pure r
  let r ←
    if r.url = "" then
      match cfg with
      | none => Except.error nilDerefMsg
      | some c => pure { r with url := c.url }
    else pure r
  let r ←
    if r.headerParams = none then
      match cfg with
      | none => Except.error nilDerefMsg
      | some c => pure { r with headerParams := c.headers }
    else pure r
  pure r

/-- getRequest from client.go: build the wire request (http.NewRequest can
fail, per the environment), attach the context when non-nil, append query
parameters when the map is non-nil, and add every header entry. -/
def getRequest (env : Env) (h : Heap) (ctx : Option GoContext)
    (method url : String) (queryParams headerParams : Option Nat)
    (body : Option Nat) : Except String WireRequest :=
  match env.httpNewRequestFails method url with
  | some e => .error e
  | none =>
    .ok
      { method := method
        url := url
        ctxAttached := ctx.isSome
        query := match queryParams with | some r => hGet h r | none => []
        headers := match headerParams with | some r => hGet h r | none => []
        body := body }

def logMessage (name : String) (status : Int) (ms : Int) : String :=
  "Fulfilled http request " ++ name ++ " with status " ++ toString status ++
    " in duration " ++ toString ms ++ " ms"

/-- The tail of Client.Request after the default-filling guards:
correlation-header injection, wire request construction, engine invocation,
the nil/nil synthesis, and observer notification on success. -/
def dispatchAfterFill (env : Env) (gen : UuidGen) (heap : Heap) (c : Client)
    (engine? : Option HeimdallClient) (request : Request) : DispatchResult :=
  let rid := getRequestID request.ctx gen
  let hr := setHeaderParam heap request requestIDHeader rid.1
  let heap := hr.1
  let request := hr.2
  match getRequest env heap request.ctx request.method request.url
      request.queryParams request.headerParams request.body with
    | .error e =>
      { outcome := .ret none (some e), request := request, heap := heap
        gen := rid.2, wire := none, doInvoked := false, logEvents := []
        metricEvents := [] }
    | .ok wire =>
      match engine? with
      | none =>
        { outcome := .panic nilDerefMsg, request := request, heap := heap
          gen := rid.2, wire := some wire, doInvoked := false
          logEvents := [], metricEvents := [] }
      | some engine =>
        match env.doer engine wire with
        | (none, none) =>
          { outcome := .ret none (some "unable to fetch response")
            request := request, heap := heap, gen := rid.2
            wire := some wire, doInvoked := true, logEvents := []
            metricEvents := [] }
        | (some resp, none) =>
          { outcome := .ret (some resp) none, request := request
            heap := heap, gen := rid.2, wire := some wire, doInvoked := true
            logEvents :=
              if c.l.isSome then
                [logMessage request.name resp.statusCode env.elapsedMs]
              else []
            metricEvents :=
              if c.m.isSome then
                [(request.name,
                  { status := resp.statusCode, latencyInMillis := env.elapsedMs })]
              else [] }
        | (resp?, some e) =>
          { outcome := .ret resp? (some e), request := request, heap := heap
            gen := rid.2, wire := some wire, doInvoked := true
            logEvents := [], metricEvents := [] }

/-- Client.Request, line for line from client.go: profile lookup (zero
value on a miss), the three default-filling guards (a nil requestConfig
pointer panics inside a triggered guard), then the pipeline tail. -/
def clientRequest (env : Env) (gen : UuidGen) (heap : Heap) (c : Client)
    (request : Request) : DispatchResult :=
  let mapping := lookupMapping c.httpClients request.name
  match fillFromConfig mapping.requestConfig request with
  | .error msg =>
    { outcome := .panic msg, request := request, heap := heap, gen := gen
      wire := none, doInvoked := false, logEvents := [], metricEvents := [] }
  | .ok request => dispatchAfterFill env gen heap c mapping.heimdallClient request

/-! ## Helper definitions for stating the claims -/

/-- The hystrix command name an engine was built with, when it is the
breaker kind. -/
def commandName? : HeimdallClient → Option String
  | .httpClient _ _ _ _ => none
  | .hystrixClient _ n _ _ _ _ _ _ _ _ _ => some n

/-- The correlation id a context supplies: the value under the well-known
key when it is present and string-typed.  Written from the words of the
spec, to state claims about the dispatcher against `getRequestID`. -/
def ctxStringId : Option GoContext → Option String
  | some c =>
    match ctxValue c idParam with
    | some (.str s) => some s
    | _ => none
  | none => none

/-- The request after the three default-filling guards of Client.Request
ran against a live profile. -/
def filledRequest (rc : RequestConfig) (r : Request) : Request :=
  { r with
    method := if r.method = "" then rc.method else r.method
    url := if r.url = "" then rc.url else r.url
    headerParams := if r.headerParams = none then rc.headers else r.headerParams }

/-- The reference the header map of a call occupies after SetHeaderParam
ran: the existing reference, or the freshly allocated cell. -/
def headerRefAfter (heap : Heap) (r : Request) : Nat :=
  match r.headerParams with
  | none => heap.length
  | some ref => ref

/-- The content of the header map of a call after the correlation header
was written. -/
def finalHeaderMap (heap : Heap) (r : Request) (v : String) : HMap :=
  match r.headerParams with
  | none => [(requestIDHeader, v)]
  | some ref => alInsert (hGet heap ref) requestIDHeader v

/-! ## Concrete fixtures used by witnesses and counterexamples -/

/-- An environment whose engine always answers 200 and whose wire-request
builder always succeeds. -/
def envStub : Env :=
  { doer := fun _ _ => (some { statusCode := 200 }, none)
    httpNewRequestFails := fun _ _ => none
    elapsedMs := 0 }

/-- An environment whose engine reports success with no response. -/
def envNilNil : Env :=
  { doer := fun _ _ => (none, none)
    httpNewRequestFails := fun _ _ => none
    elapsedMs := 0 }

def rcGet : RequestConfig :=
  { name := "svc", method := "GET", url := "http://example.test" }

def clientGet : Client := ConfigureHTTPClient [some rcGet]

/-- A profile carrying both backoff sub-configs. -/
def rcBothBackoffs : RequestConfig :=
  { name := "svc"
    backoffPolicy := some
      { constantBackoff := some { interval := 2, maximumJitterInterval := 5 }
        exponentialBackoff := some
          { initialTimeout := 2, maxTimeout := 10, exponentFactor := 2
            maximumJitterInterval := 2 } } }

/-- A profile with a breaker config. -/
def rcHystrix : RequestConfig :=
  { name := "svc"
    hystrixConfig := some
      { hystrixTimeout := 0, maxConcurrentRequests := 10
        errorPercentThreshold := 20, sleepWindowInMillis := 10
        requestVolumeThreshold := 10, fallback := false } }

/-- A config map with an uncastable retrycount and no timeout-related
keys besides the request timeout. -/
def cmDefaults : GoMap :=
  [("timeoutinmillis", GoVal.int 5000), ("retrycount", GoVal.map [])]

/-- A heap holding one static header map (cell 0) and one call-supplied
header map (cell 1). -/
def heapHdr : Heap := [[("source", "internal")], [("x", "y")]]

/-- A profile whose static headers live in heap cell 0. -/
def rcHdr : RequestConfig :=
  { name := "svc", method := "GET", url := "http://example.test"
    headers := some 0 }

def clientHdr : Client := ConfigureHTTPClient [some rcHdr]

/-! ## Lemmas about the map and heap model -/

theorem any_cons_false {α : Type} (p : α → Bool) (x : α) (t : List α)
    (h : (x :: t).any p = false) : p x = false ∧ t.any p = false := by
  rw [List.any_cons] at h
  cases hx : p x with
  | true => rw [hx] at h; simp at h
  | false =>
    rw [hx] at h
    simp only [Bool.false_or] at h
    exact ⟨rfl, h⟩

theorem bool_eq_false_of_not_true {b : Bool} (h : ¬b = true) : b = false := by
  cases hb : b with
  | true => exact absurd hb h
  | false => rfl

theorem find?_overwrite_self {α : Type} (k : String) (v : α) :
    ∀ l : List (String × α), l.any (fun p => p.1 == k) = true →
      List.find? (fun p => p.1 == k)
        (l.map (fun p => if p.1 == k then (k, v) else p)) = some (k, v) := by
  intro l
  induction l with
  | nil => intro ha; simp at ha
  | cons p t ih =>
    intro ha
    rw [List.map_cons]
    cases hb : (p.1 == k) with
    | true =>
      rw [if_pos rfl]
      exact List.find?_cons_of_pos _ (by simp)
    | false =>
      rw [if_neg Bool.false_ne_true, List.find?_cons_of_neg _ (by simp [hb])]
      apply ih
      rw [List.any_cons, hb] at ha
      simpa using ha

theorem find?_append_single_self {α : Type} (k : String) (v : α) :
    ∀ l : List (String × α), l.any (fun p => p.1 == k) = false →
      List.find? (fun p => p.1 == k) (l ++ [(k, v)]) = some (k, v) := by
  intro l
  induction l with
  | nil =>
    intro _
    exact List.find?_cons_of_pos _ (by simp)
  | cons p t ih =>
    intro ha
    have hparts := any_cons_false _ p t ha
    rw [List.cons_append, List.find?_cons_of_neg _ (by simp [hparts.1])]
    exact ih hparts.2

theorem find?_overwrite_ne {α : Type} (k : String) (v : α) (k' : String)
    (hne : k' ≠ k) :
    ∀ l : List (String × α),
      List.find? (fun p => p.1 == k')
        (l.map (fun p => if p.1 == k then (k, v) else p)) =
      List.find? (fun p => p.1 == k') l := by
  intro l
  induction l with
  | nil => rfl
  | cons p t ih =>
    rw [List.map_cons]
    cases hb : (p.1 == k) with
    | true =>
      have hpk : p.1 = k := beq_iff_eq.mp hb
      have hnew : ¬(((k, v) : String × α).1 == k') = true := by
        simp only [beq_iff_eq]
        exact fun h => hne h.symm
      have hold : ¬(p.1 == k') = true := by
        simp only [beq_iff_eq, hpk]
        exact fun h => hne h.symm
      rw [if_pos rfl, @List.find?_cons_of_neg _ (fun q => q.1 == k') (k, v) _ hnew,
        @List.find?_cons_of_neg _ (fun q => q.1 == k') p _ hold]
      exact ih
    | false =>
      rw [if_neg Bool.false_ne_true]
      cases hb' : (p.1 == k') with
      | true =>
        rw [@List.find?_cons_of_pos _ (fun q => q.1 == k') p _ hb',
          @List.find?_cons_of_pos _ (fun q => q.1 == k') p _ hb']
      | false =>
        rw [@List.find?_cons_of_neg _ (fun q => q.1 == k') p _ (by simp [hb']),
          @List.find?_cons_of_neg _ (fun q => q.1 == k') p _ (by simp [hb'])]
        exact ih

theorem find?_append_single_ne {α : Type} (k : String) (v : α) (k' : String)
    (hne : k' ≠ k) :
    ∀ l : List (String × α),
      List.find? (fun p => p.1 == k') (l ++ [(k, v)]) =
      List.find? (fun p => p.1 == k') l := by
  intro l
  induction l with
  | nil =>
    rw [List.nil_append]
    rw [@List.find?_cons_of_neg _ (fun q => q.1 == k') (k, v) _
      (by simp only [beq_iff_eq]; exact fun h => hne h.symm)]
  | cons p t ih =>
    rw [List.cons_append]
    cases hb' : (p.1 == k') with
    | true =>
      rw [@List.find?_cons_of_pos _ (fun q => q.1 == k') p _ hb',
        @List.find?_cons_of_pos _ (fun q => q.1 == k') p _ hb']
    | false =>
      rw [@List.find?_cons_of_neg _ (fun q => q.1 == k') p _ (by simp [hb']),
        @List.find?_cons_of_neg _ (fun q => q.1 == k') p _ (by simp [hb'])]
      exact ih

theorem alLookup_alInsert_self {α : Type} (l : List (String × α)) (k : String)
    (v : α) : alLookup (alInsert l k v) k = some v := by
  unfold alInsert alLookup
  by_cases ha : l.any (fun p => p.1 == k) = true
  · rw [if_pos ha, find?_overwrite_self k v l ha]
  · rw [if_neg ha,
      find?_append_single_self k v l (bool_eq_false_of_not_true ha)]

theorem alLookup_alInsert_ne {α : Type} (l : List (String × α)) (k : String)
    (v : α) (k' : String) (hne : k' ≠ k) :
    alLookup (alInsert l k v) k' = alLookup l k' := by
  unfold alInsert alLookup
  by_cases ha : l.any (fun p => p.1 == k) = true
  · rw [if_pos ha, find?_overwrite_ne k v k' hne l]
  · rw [if_neg ha, find?_append_single_ne k v k' hne l]

theorem KeysNodup_alInsert (m : HMap) (k v : String) (h : KeysNodup m) :
    KeysNodup (alInsert m k v) := by
  unfold KeysNodup at h ⊢
  unfold alInsert
  by_cases ha : m.any (fun p => p.1 == k) = true
  · rw [if_pos ha, List.map_map]
    have hkeys : (Prod.fst ∘ fun p : String × String =>
        if p.1 == k then (k, v) else p) = Prod.fst := by
      funext q
      cases hb : (q.1 == k) with
      | true =>
        have hqk : q.1 = k := beq_iff_eq.mp hb
        simp [Function.comp, hb, hqk]
      | false => simp [Function.comp, hb]
    rw [hkeys]
    exact h
  · rw [if_neg ha, List.map_append]
    simp only [List.map_cons, List.map_nil]
    rw [List.nodup_append]
    refine ⟨h, List.nodup_singleton k, ?_⟩
    intro a haa hab
    simp only [List.mem_singleton] at hab
    rw [hab] at haa
    rcases List.mem_map.mp haa with ⟨p, hpm, hpk⟩
    have ha' : m.any (fun p => p.1 == k) = false := bool_eq_false_of_not_true ha
    have hfalse := List.any_eq_false.mp ha' p hpm
    simp only [beq_iff_eq] at hfalse
    exact hfalse hpk

theorem hmCount_eq_zero_of_not_any (m : HMap) (k : String)
    (h : m.any (fun p => p.1 == k) = false) : hmCount m k = 0 := by
  unfold hmCount
  rw [List.filter_eq_nil_iff.mpr]
  · rfl
  · intro p hp
    exact List.any_eq_false.mp h p hp

theorem hmCount_of_nodup_of_any (k : String) :
    ∀ m : HMap, KeysNodup m → m.any (fun p => p.1 == k) = true →
      hmCount m k = 1 := by
  intro m
  induction m with
  | nil => intro _ ha; simp at ha
  | cons p t ih =>
    intro h ha
    unfold KeysNodup at h
    simp only [List.map_cons, List.nodup_cons] at h
    cases hb : (p.1 == k) with
    | true =>
      have hpk : p.1 = k := beq_iff_eq.mp hb
      have ht : t.any (fun q => q.1 == k) = false := by
        rw [List.any_eq_false]
        intro q hq
        simp only [beq_iff_eq]
        intro hqk
        exact h.1 (List.mem_map.mpr ⟨q, hq, hqk.trans hpk.symm⟩)
      have h0 := hmCount_eq_zero_of_not_any t k ht
      unfold hmCount at h0 ⊢
      rw [@List.filter_cons_of_pos _ (fun q => q.1 == k) p t hb, List.length_cons, h0]
    | false =>
      have ha' : t.any (fun q => q.1 == k) = true := by
        rw [List.any_cons, hb] at ha
        simpa using ha
      have h1 := ih h.2 ha'
      unfold hmCount at h1 ⊢
      rw [List.filter_cons_of_neg (by simp [hb])]
      exact h1

theorem hmCount_map_overwrite (k v : String) :
    ∀ m : HMap,
      hmCount (m.map (fun p => if p.1 == k then (k, v) else p)) k =
        hmCount m k := by
  intro m
  induction m with
  | nil => rfl
  | cons p t ih =>
    unfold hmCount at ih ⊢
    rw [List.map_cons]
    cases hb : (p.1 == k) with
    | true =>
      rw [if_pos rfl, List.filter_cons_of_pos (by simp),
        @List.filter_cons_of_pos _ (fun q => q.1 == k) p t hb,
        List.length_cons, List.length_cons, ih]
    | false =>
      rw [if_neg Bool.false_ne_true, List.filter_cons_of_neg (by simp [hb]),
        List.filter_cons_of_neg (by simp [hb])]
      exact ih

theorem hmCount_alInsert_self (m : HMap) (k v : String) (h : KeysNodup m) :
    hmCount (alInsert m k v) k = 1 := by
  unfold alInsert
  by_cases ha : m.any (fun p => p.1 == k) = true
  · rw [if_pos ha, hmCount_map_overwrite]
    exact hmCount_of_nodup_of_any k m h ha
  · rw [if_neg ha]
    have h0 := hmCount_eq_zero_of_not_any m k (bool_eq_false_of_not_true ha)
    unfold hmCount at h0 ⊢
    have hnil : List.filter (fun p => p.1 == k) m = [] := List.length_eq_zero.mp h0
    rw [List.filter_append, hnil, List.nil_append]
    simp


theorem hSet_oob (h : Heap) (r : Nat) (m : HMap) (hr : h.length ≤ r) :
    hSet h r m = h := List.set_eq_of_length_le hr

theorem hGet_oob (h : Heap) (r : Nat) (hr : h.length ≤ r) : hGet h r = [] := by
  unfold hGet
  rw [List.get?_eq_none.mpr hr]
  rfl

theorem uuidString_inj (a b : Nat) (hab : a ≠ b) : uuidString a ≠ uuidString b := by
  intro he
  have hl := congrArg String.length he
  simp [uuidString, String.length] at hl
  exact hab hl

theorem withLogger_locked (c : Client) (x : Option Logger) (h : c.ol = true) :
    withLogger c x = c := by
  cases x with
  | none => rfl
  | some lg => simp [withLogger, h]

theorem foldl_withLogger_locked :
    ∀ (ls : List (Option Logger)) (c : Client), c.ol = true →
      (ls.foldl withLogger c).l = c.l := by
  intro ls
  induction ls with
  | nil => intro c _; rfl
  | cons x t ih =>
    intro c h
    rw [List.foldl_cons, withLogger_locked c x h]
    exact ih c h

theorem hGet_hSet_self (h : Heap) (r : Nat) (m : HMap) (hr : r < h.length) :
    hGet (hSet h r m) r = m := by
  induction h generalizing r with
  | nil => simp at hr
  | cons x t ih =>
    cases r with
    | zero => simp [hGet, hSet]
    | succ n =>
      simp only [hSet, List.set, hGet, List.get?_cons_succ]
      exact ih n (by simpa using hr)

theorem hGet_hSet_ne (h : Heap) (r r' : Nat) (m : HMap) (hne : r' ≠ r) :
    hGet (hSet h r m) r' = hGet h r' := by
  unfold hGet hSet
  rw [List.get?_set_ne _ _ (fun h => hne h.symm)]

theorem hGet_append_self (h : Heap) (m : HMap) : hGet (h ++ [m]) h.length = m := by
  unfold hGet
  rw [List.get?_concat_length]
  rfl

theorem hGet_append_lt (h : Heap) (m : HMap) (r : Nat) (hr : r < h.length) :
    hGet (h ++ [m]) r = hGet h r := by
  unfold hGet
  rw [List.get?_append hr]

/-- The three guards at the top of Client.Request, with a live
requestConfig pointer: fill empty method and url from the profile and a
nil header map from the static headers of the profile, as one record
update. -/
theorem fillFromConfig_some (c : RequestConfig) (r : Request) :
    fillFromConfig (some c) r = .ok (filledRequest c r) := by
  by_cases h1 : r.method = "" <;> by_cases h2 : r.url = "" <;>
    by_cases h3 : r.headerParams = none <;>
      simp [fillFromConfig, filledRequest, h1, h2, h3, pure, Except.pure,
        bind, Except.bind]

/-! ## Characterization of the dispatch pipeline -/

theorem setHeaderParam_spec (heap : Heap) (r : Request) (v : String)
    (hvalid : ∀ ref, r.headerParams = some ref → ref < heap.length) :
    (setHeaderParam heap r requestIDHeader v).2 =
      { r with headerParams := some (headerRefAfter heap r) } ∧
    hGet (setHeaderParam heap r requestIDHeader v).1 (headerRefAfter heap r) =
      finalHeaderMap heap r v ∧
    (∀ r', r' ≠ headerRefAfter heap r →
      hGet (setHeaderParam heap r requestIDHeader v).1 r' = hGet heap r') := by
  cases hp : r.headerParams with
  | none =>
    refine ⟨?_, ?_, ?_⟩
    · simp [setHeaderParam, hp, headerRefAfter, hAlloc]
    · simp only [setHeaderParam, hp, headerRefAfter, hAlloc, finalHeaderMap]
      exact hGet_append_self heap _
    · intro r' hr'
      simp only [setHeaderParam, hp, hAlloc]
      simp only [headerRefAfter, hp] at hr'
      by_cases hlt : r' < heap.length
      · exact hGet_append_lt heap _ r' hlt
      · have hge : heap.length ≤ r' := Nat.le_of_not_lt hlt
        rw [hGet_oob (heap ++ [[(requestIDHeader, v)]]) r' (by simp; omega),
          hGet_oob heap r' hge]
  | some ref =>
    have hlt := hvalid ref hp
    refine ⟨?_, ?_, ?_⟩
    · simp only [setHeaderParam, hp, headerRefAfter]
      rw [← hp]
    · simp only [setHeaderParam, hp, headerRefAfter, finalHeaderMap]
      exact hGet_hSet_self heap ref _ hlt
    · intro r' hr'
      simp only [setHeaderParam, hp]
      simp only [headerRefAfter, hp] at hr'
      exact hGet_hSet_ne heap ref r' _ hr'

theorem setHeaderParam_frame (heap : Heap) (r : Request) (v : String) :
    (setHeaderParam heap r requestIDHeader v).2.name = r.name ∧
    (setHeaderParam heap r requestIDHeader v).2.method = r.method ∧
    (setHeaderParam heap r requestIDHeader v).2.url = r.url ∧
    (setHeaderParam heap r requestIDHeader v).2.queryParams = r.queryParams ∧
    (setHeaderParam heap r requestIDHeader v).2.body = r.body ∧
    (setHeaderParam heap r requestIDHeader v).2.ctx = r.ctx := by
  cases hp : r.headerParams <;> simp [setHeaderParam, hp]

theorem dispatchAfterFill_state (env : Env) (gen : UuidGen) (heap : Heap)
    (c : Client) (eng? : Option HeimdallClient) (r : Request) :
    (dispatchAfterFill env gen heap c eng? r).request =
      (setHeaderParam heap r requestIDHeader (getRequestID r.ctx gen).1).2 ∧
    (dispatchAfterFill env gen heap c eng? r).heap =
      (setHeaderParam heap r requestIDHeader (getRequestID r.ctx gen).1).1 ∧
    (dispatchAfterFill env gen heap c eng? r).gen = (getRequestID r.ctx gen).2 := by
  dsimp only [dispatchAfterFill]
  repeat' split
  all_goals exact ⟨rfl, rfl, rfl⟩

theorem dispatchAfterFill_wire (env : Env) (gen : UuidGen) (heap : Heap)
    (c : Client) (eng? : Option HeimdallClient) (r : Request)
    (hbuild : ∀ m u, env.httpNewRequestFails m u = none)
    (hvalid : ∀ ref, r.headerParams = some ref → ref < heap.length) :
    (dispatchAfterFill env gen heap c eng? r).wire = some
      { method := r.method
        url := r.url
        ctxAttached := r.ctx.isSome
        query :=
          match r.queryParams with
          | some qr => hGet (setHeaderParam heap r requestIDHeader
              (getRequestID r.ctx gen).1).1 qr
          | none => []
        headers := finalHeaderMap heap r (getRequestID r.ctx gen).1
        body := r.body } := by
  rcases setHeaderParam_spec heap r (getRequestID r.ctx gen).1 hvalid with
    ⟨hreq, hmap, _⟩
  dsimp only [dispatchAfterFill]
  rw [hreq]
  dsimp only [getRequest]
  rw [hbuild]
  dsimp only []
  rw [← hmap]
  repeat' split
  all_goals rfl

theorem dispatchAfterFill_nilnil (env : Env) (gen : UuidGen) (heap : Heap)
    (c : Client) (eng : HeimdallClient) (r : Request)
    (hbuild : ∀ m u, env.httpNewRequestFails m u = none)
    (hdo : ∀ e w, env.doer e w = (none, none)) :
    (dispatchAfterFill env gen heap c (some eng) r).outcome =
      .ret none (some "unable to fetch response") ∧
    (dispatchAfterFill env gen heap c (some eng) r).doInvoked = true ∧
    (dispatchAfterFill env gen heap c (some eng) r).logEvents = [] ∧
    (dispatchAfterFill env gen heap c (some eng) r).metricEvents = [] := by
  dsimp only [dispatchAfterFill, getRequest]
  rw [hbuild]
  dsimp only []
  rw [hdo]
  exact ⟨rfl, rfl, rfl, rfl⟩

theorem clientRequest_happy (env : Env) (gen : UuidGen) (heap : Heap)
    (c : Client) (req : Request) (eng : HeimdallClient) (rc : RequestConfig)
    (hlk : lookupMapping c.httpClients req.name =
      { heimdallClient := some eng, requestConfig := some rc }) :
    clientRequest env gen heap c req =
      dispatchAfterFill env gen heap c (some eng) (filledRequest rc req) := by
  dsimp only [clientRequest]
  rw [hlk, fillFromConfig_some]

theorem clientRequest_state (env : Env) (gen : UuidGen) (heap : Heap)
    (c : Client) (req : Request) (eng : HeimdallClient) (rc : RequestConfig)
    (hlk : lookupMapping c.httpClients req.name =
      { heimdallClient := some eng, requestConfig := some rc }) :
    (clientRequest env gen heap c req).request =
      (setHeaderParam heap (filledRequest rc req) requestIDHeader
        (getRequestID req.ctx gen).1).2 ∧
    (clientRequest env gen heap c req).heap =
      (setHeaderParam heap (filledRequest rc req) requestIDHeader
        (getRequestID req.ctx gen).1).1 ∧
    (clientRequest env gen heap c req).gen = (getRequestID req.ctx gen).2 := by
  rw [clientRequest_happy env gen heap c req eng rc hlk]
  exact dispatchAfterFill_state env gen heap c (some eng) (filledRequest rc req)

theorem getRequestID_spec (ctx : Option GoContext) (g : UuidGen) :
    (ctxStringId ctx = none →
      getRequestID ctx g = (uuidString g.counter, ⟨g.counter + 1⟩)) ∧
    (∀ s, ctxStringId ctx = some s → getRequestID ctx g = (s, g)) := by
  cases ctx with
  | none =>
    exact ⟨fun _ => rfl, fun s hs => by simp [ctxStringId] at hs⟩
  | some c =>
    cases hv : ctxValue c idParam with
    | none =>
      refine ⟨fun _ => ?_, fun s hs => ?_⟩
      · simp [getRequestID, hv, uuidNewString]
      · simp [ctxStringId, hv] at hs
    | some v =>
      cases v with
      | str s0 =>
        refine ⟨fun hnone => ?_, fun s hs => ?_⟩
        · simp [ctxStringId, hv] at hnone
        · simp only [ctxStringId, hv, Option.some_inj] at hs
          rw [← hs]
          simp [getRequestID, hv]
      | int n =>
        refine ⟨fun _ => ?_, fun s hs => ?_⟩
        · simp [getRequestID, hv, uuidNewString]
        · simp [ctxStringId, hv] at hs
      | other =>
        refine ⟨fun _ => ?_, fun s hs => ?_⟩
        · simp [getRequestID, hv, uuidNewString]
        · simp [ctxStringId, hv] at hs

/-! ## The claims -/

/-- C2: for every request configuration, the retrier selected for its
engine is determined by backoff sub-config presence with Constant taking
precedence: with a constant-backoff config present the retrier is the
constant-backoff-with-jitter kind (whatever the exponential field holds);
with no constant but an exponential config it is the
exponential-backoff-with-jitter kind; with neither it is the no-retry
kind. -/
theorem claim_C2 (rc : RequestConfig) :
    (∀ bp cb, rc.backoffPolicy = some bp → bp.constantBackoff = some cb →
      getRetrier rc =
        .retrier (.constantBackoff cb.interval cb.maximumJitterInterval)) ∧
    (∀ bp eb, rc.backoffPolicy = some bp → bp.constantBackoff = none →
      bp.exponentialBackoff = some eb →
      getRetrier rc = .retrier (.exponentialBackoff eb.initialTimeout
        eb.maxTimeout eb.exponentFactor eb.maximumJitterInterval)) ∧
    ((∀ bp, rc.backoffPolicy = some bp →
        bp.constantBackoff = none ∧ bp.exponentialBackoff = none) →
      getRetrier rc = .noRetrier) := by
  refine ⟨?_, ?_, ?_⟩
  · intro bp cb h1 h2
    simp [getRetrier, h1, h2]
  · intro bp eb h1 h2 h3
    simp [getRetrier, h1, h2, h3]
  · intro hnone
    cases hbp : rc.backoffPolicy with
    | none => simp [getRetrier, hbp]
    | some bp =>
      rcases hnone bp hbp with ⟨h1, h2⟩
      simp [getRetrier, hbp, h1, h2]

/-- C2 witness: with both sub-configs present the constant one wins. -/
theorem claim_C2_witness :
    getRetrier rcBothBackoffs = .retrier (.constantBackoff 2 5) :=
  (claim_C2 rcBothBackoffs).1 _ _ rfl rfl

/-- C3: the engine kind of a registered profile is decided solely by
presence of the hystrix config (breaker kind iff present, plain kind iff
absent, independent of the threshold values), the breaker engine is keyed
by the profile name as its command name, and ConfigureHTTPClient stores
exactly the engine buildHTTPClient yields for the profile. -/
theorem claim_C3 (cfgs : List (Option RequestConfig)) (rc : RequestConfig) :
    (engineKind (buildHTTPClient rc) = .breaker ↔ rc.hystrixConfig.isSome = true) ∧
    (engineKind (buildHTTPClient rc) = .plain ↔ rc.hystrixConfig = none) ∧
    (∀ hc, rc.hystrixConfig = some hc →
      commandName? (buildHTTPClient rc) = some rc.name) ∧
    (∀ hc hc',
      engineKind (buildHTTPClient { rc with hystrixConfig := some hc }) =
        engineKind (buildHTTPClient { rc with hystrixConfig := some hc' })) ∧
    (alLookup (ConfigureHTTPClient (cfgs ++ [some rc])).httpClients rc.name =
      some { heimdallClient := some (buildHTTPClient rc)
             requestConfig := some rc }) := by
  refine ⟨?_, ?_, ?_, ?_, ?_⟩
  · cases h : rc.hystrixConfig <;> simp [buildHTTPClient, h, engineKind]
  · cases h : rc.hystrixConfig <;> simp [buildHTTPClient, h, engineKind]
  · intro hc h
    simp [buildHTTPClient, h, commandName?]
  · intro hc hc'
    simp [buildHTTPClient, engineKind]
  · unfold ConfigureHTTPClient
    rw [List.foldl_append]
    simp only [List.foldl_cons, List.foldl_nil]
    exact alLookup_alInsert_self _ _ _

/-- C3 witness: a profile with a breaker config yields the breaker engine
keyed by its name. -/
theorem claim_C3_witness :
    commandName? (buildHTTPClient rcHystrix) = some "svc" :=
  (claim_C3 [] rcHystrix).2.2.1 _ rfl

/-- C10: WithLogger and WithMetrics ignore nil arguments entirely (neither
installing an observer nor consuming the one-time set), each slot is
independently settable at most once, the first non-nil observer wins and
later calls are no-ops. -/
theorem claim_C10 :
    (∀ c : Client, withLogger c none = c) ∧
    (∀ c : Client, withMetrics c none = c) ∧
    (∀ (c : Client) (lg : Logger), c.ol = false →
      (withLogger c (some lg)).l = some lg) ∧
    (∀ (c : Client) (mt : MetricsTag), c.om = false →
      (withMetrics c (some mt)).m = some mt) ∧
    (∀ (c : Client) (lg : Logger) (x : Option Logger), c.ol = false →
      (withLogger (withLogger c (some lg)) x).l = some lg) ∧
    (∀ (c : Client) (mt : MetricsTag) (x : Option MetricsTag), c.om = false →
      (withMetrics (withMetrics c (some mt)) x).m = some mt) ∧
    (∀ (c : Client) (x : Option Logger),
      (withLogger c x).m = c.m ∧ (withLogger c x).om = c.om ∧
        (withLogger c x).httpClients = c.httpClients) ∧
    (∀ (c : Client) (x : Option MetricsTag),
      (withMetrics c x).l = c.l ∧ (withMetrics c x).ol = c.ol ∧
        (withMetrics c x).httpClients = c.httpClients) ∧
    (∀ (ls : List (Option Logger)) (c : Client), c.ol = false → c.l = none →
      (ls.foldl withLogger c).l = ls.findSome? id) := by
  refine ⟨fun c => rfl, fun c => rfl, ?_, ?_, ?_, ?_, ?_, ?_, ?_⟩
  · intro c lg h
    simp [withLogger, h]
  · intro c mt h
    simp [withMetrics, h]
  · intro c lg x h
    have hw : withLogger c (some lg) = { c with l := some lg, ol := true } := by
      simp [withLogger, h]
    rw [hw, withLogger_locked _ x rfl]
  · intro c mt x h
    have hw : withMetrics c (some mt) = { c with m := some mt, om := true } := by
      simp [withMetrics, h]
    rw [hw]
    cases x with
    | none => rfl
    | some mt' => simp [withMetrics]
  · intro c x
    cases x with
    | none => exact ⟨rfl, rfl, rfl⟩
    | some lg =>
      by_cases h : c.ol = true
      · simp [withLogger, h]
      · have h' : c.ol = false := bool_eq_false_of_not_true h
        simp [withLogger, h']
  · intro c x
    cases x with
    | none => exact ⟨rfl, rfl, rfl⟩
    | some mt =>
      by_cases h : c.om = true
      · simp [withMetrics, h]
      · have h' : c.om = false := bool_eq_false_of_not_true h
        simp [withMetrics, h']
  · intro ls
    induction ls with
    | nil =>
      intro c _ h0
      simpa [List.findSome?] using h0
    | cons x t ih =>
      intro c h h0
      cases x with
      | none =>
        rw [List.foldl_cons]
        simpa [List.findSome?] using ih c h h0
      | some lg =>
        rw [List.foldl_cons]
        have hw : withLogger c (some lg) = { c with l := some lg, ol := true } := by
          simp [withLogger, h]
        rw [hw, foldl_withLogger_locked t _ rfl]
        simp [List.findSome?]

/-- C10 witness: on a fresh client the first non-nil logger wins over a
later one. -/
theorem claim_C10_witness :
    (withLogger (withLogger { httpClients := [] } (some 7)) (some 9)).l = some 7 :=
  claim_C10.2.2.2.2.1 { httpClients := [] } 7 (some 9) rfl

/-- C6: field defaulting in construction — a missing or uncastable
retrycount resolves to 1; a missing connect timeout resolves to one tenth
of the resolved request timeout; a missing keep-alive resolves to 30
seconds; a missing idle-connection timeout resolves to 90 seconds; and in
the breaker config a missing sleep window resolves to 5000 milliseconds. -/
theorem claim_C6 (gomaxprocs : Int) (nm : String) (cm : GoMap) (h : Heap) :
    ((alLookup cm "retrycount" = none ∨
        (∃ v e, alLookup cm "retrycount" = some v ∧ toIntE v = .error e)) →
      (NewRequestConfig gomaxprocs nm (some cm) h).1.retryCount = 1) ∧
    (alLookup cm "connecttimeoutinmillis" = none →
      (NewRequestConfig gomaxprocs nm (some cm) h).1.connectTimeout =
        Int.tdiv (NewRequestConfig gomaxprocs nm (some cm) h).1.timeout 10) ∧
    (alLookup cm "keepaliveinmillis" = none →
      (NewRequestConfig gomaxprocs nm (some cm) h).1.keepAlive = 30 * 1000000000) ∧
    (alLookup cm "idleconnectiontimeoutinmillis" = none →
      (NewRequestConfig gomaxprocs nm (some cm) h).1.idleConnectionTimeout =
        90 * 1000000000) ∧
    (∀ hcm : GoMap, alLookup hcm "sleepwindowinmillis" = none →
      (NewHystrixConfig hcm).sleepWindowInMillis = 5000) := by
  refine ⟨?_, ?_, ?_, ?_, ?_⟩
  · rintro (hmiss | ⟨v, e, hv, he⟩)
    · simp [NewRequestConfig, getConfigOptionInt, hmiss]
    · simp [NewRequestConfig, getConfigOptionInt, hv, he]
  · intro hmiss
    simp [NewRequestConfig, getConfigOptionInt, hmiss]
  · intro hmiss
    simp [NewRequestConfig, getConfigOptionInt, hmiss, defaultKeepAlive]
  · intro hmiss
    simp [NewRequestConfig, getConfigOptionInt, hmiss,
      defaultIdleConnectionTimeout]
  · intro hcm hmiss
    simp [NewHystrixConfig, getConfigOptionInt, hmiss, defaultSleepWindowInMillis]

/-- C6 witness: a concrete map with an uncastable retrycount and no
connect, keep-alive or idle keys resolves to all the documented
defaults. -/
theorem claim_C6_witness :
    (NewRequestConfig 4 "svc" (some cmDefaults) []).1.retryCount = 1 ∧
    (NewRequestConfig 4 "svc" (some cmDefaults) []).1.connectTimeout =
      Int.tdiv (NewRequestConfig 4 "svc" (some cmDefaults) []).1.timeout 10 ∧
    (NewRequestConfig 4 "svc" (some cmDefaults) []).1.keepAlive = 30 * 1000000000 ∧
    (NewRequestConfig 4 "svc" (some cmDefaults) []).1.idleConnectionTimeout =
      90 * 1000000000 ∧
    (NewHystrixConfig []).sleepWindowInMillis = 5000 := by
  have h := claim_C6 4 "svc" cmDefaults []
  exact ⟨h.1 (Or.inr ⟨GoVal.map [], "unable to cast to int", rfl, rfl⟩),
    h.2.1 rfl, h.2.2.1 rfl, h.2.2.2.1 rfl, h.2.2.2.2 [] rfl⟩

/-- Corollary of the wire lemma at the Client.Request level: the outgoing
wire request exists and carries exactly the final header map. -/
theorem clientRequest_wire (env : Env) (gen : UuidGen) (heap : Heap)
    (c : Client) (req : Request) (eng : HeimdallClient) (rc : RequestConfig)
    (hlk : lookupMapping c.httpClients req.name =
      { heimdallClient := some eng, requestConfig := some rc })
    (hbuild : ∀ m u, env.httpNewRequestFails m u = none)
    (hvreq : ∀ r0, req.headerParams = some r0 → r0 < heap.length)
    (hvrc : ∀ rp, rc.headers = some rp → rp < heap.length) :
    ∃ w, (clientRequest env gen heap c req).wire = some w ∧
      w.headers = finalHeaderMap heap (filledRequest rc req)
        (getRequestID req.ctx gen).1 := by
  have hvfr : ∀ ref, (filledRequest rc req).headerParams = some ref →
      ref < heap.length := by
    intro ref href
    by_cases hp : req.headerParams = none
    · simp [filledRequest, hp] at href
      exact hvrc ref href
    · simp [filledRequest, hp] at href
      exact hvreq ref href
  rw [clientRequest_happy env gen heap c req eng rc hlk]
  have hw := dispatchAfterFill_wire env gen heap c (some eng)
    (filledRequest rc req) hbuild hvfr
  exact ⟨_, hw, rfl⟩

theorem finalHeaderMap_lookup (heap : Heap) (r : Request) (v : String) :
    alLookup (finalHeaderMap heap r v) requestIDHeader = some v := by
  cases hp : r.headerParams with
  | none => simp [finalHeaderMap, hp, alLookup]
  | some ref =>
    simp only [finalHeaderMap, hp]
    exact alLookup_alInsert_self _ _ _

/-- C8: when the engine reports no error together with no response,
Client.Request returns a nil response and a synthesized "unable to fetch
response" error rather than a nil/nil pair, and neither the logger nor the
metrics observer is invoked. -/
theorem claim_C8 (env : Env) (gen : UuidGen) (heap : Heap) (c : Client)
    (req : Request) (eng : HeimdallClient) (rc : RequestConfig)
    (hlk : lookupMapping c.httpClients req.name =
      { heimdallClient := some eng, requestConfig := some rc })
    (hbuild : ∀ m u, env.httpNewRequestFails m u = none)
    (hdo : ∀ e w, env.doer e w = (none, none)) :
    (clientRequest env gen heap c req).outcome =
      .ret none (some "unable to fetch response") ∧
    (clientRequest env gen heap c req).doInvoked = true ∧
    (clientRequest env gen heap c req).logEvents = [] ∧
    (clientRequest env gen heap c req).metricEvents = [] := by
  rw [clientRequest_happy env gen heap c req eng rc hlk]
  exact dispatchAfterFill_nilnil env gen heap c eng (filledRequest rc req)
    hbuild hdo

/-- C8 witness: a concrete dispatch whose engine yields nil response and
nil error. -/
theorem claim_C8_witness :
    (clientRequest envNilNil ⟨0⟩ [] clientGet { name := "svc" }).outcome =
      .ret none (some "unable to fetch response") ∧
    (clientRequest envNilNil ⟨0⟩ [] clientGet { name := "svc" }).doInvoked = true ∧
    (clientRequest envNilNil ⟨0⟩ [] clientGet { name := "svc" }).logEvents = [] ∧
    (clientRequest envNilNil ⟨0⟩ [] clientGet { name := "svc" }).metricEvents = [] :=
  claim_C8 envNilNil ⟨0⟩ [] clientGet { name := "svc" } (buildHTTPClient rcGet)
    rcGet rfl (fun _ _ => rfl) (fun _ _ => rfl)

/-- C1 (code bug): dispatching a Call Request that names an unregistered
profile does not return an explicit "unknown profile" error — the Go map
read yields a zero-value mapping whose nil requestConfig pointer is
dereferenced by the first default-filling guard, which panics; the engine
Do is never invoked and no wire request is built, so no network call is
attempted. -/
theorem claim_C1_code_bug :
    (clientRequest envStub ⟨0⟩ [] (ConfigureHTTPClient [])
      { name := "missing" }).outcome = .panic nilDerefMsg ∧
    (clientRequest envStub ⟨0⟩ [] (ConfigureHTTPClient [])
      { name := "missing" }).doInvoked = false ∧
    (clientRequest envStub ⟨0⟩ [] (ConfigureHTTPClient [])
      { name := "missing" }).wire = none :=
  ⟨rfl, rfl, rfl⟩

/-- C7 counterexample: the Call Request is mutated during dispatch — a call
with an empty method dispatched against a profile whose method is GET comes
back with its method field rewritten to GET, different from its
pre-dispatch value (the Bool equality of the two method strings evaluates
to false). -/
theorem claim_C7_counterexample :
    (clientRequest envStub ⟨0⟩ [] clientGet { name := "svc" }).request.method =
      "GET" ∧
    ({ name := "svc" } : Request).method = "" ∧
    ((clientRequest envStub ⟨0⟩ [] clientGet { name := "svc" }).request.method ==
      ({ name := "svc" } : Request).method) = false :=
  ⟨rfl, rfl, rfl⟩

/-- C7 amended: during dispatch the Call Request is mutated only to resolve
defaults — empty method and url are filled from the profile and the
correlation header is written into the header map — while name, query
mapping, body and context are unchanged, a non-empty method or url is
unchanged, a non-nil header reference is unchanged, and every header-map
binding other than the correlation key is unchanged. -/
theorem claim_C7_amended (env : Env) (gen : UuidGen) (heap : Heap) (c : Client)
    (req : Request) (eng : HeimdallClient) (rc : RequestConfig)
    (hlk : lookupMapping c.httpClients req.name =
      { heimdallClient := some eng, requestConfig := some rc }) :
    (clientRequest env gen heap c req).request.name = req.name ∧
    (clientRequest env gen heap c req).request.queryParams = req.queryParams ∧
    (clientRequest env gen heap c req).request.body = req.body ∧
    (clientRequest env gen heap c req).request.ctx = req.ctx ∧
    (req.method ≠ "" → (clientRequest env gen heap c req).request.method = req.method) ∧
    (req.url ≠ "" → (clientRequest env gen heap c req).request.url = req.url) ∧
    (∀ r0, req.headerParams = some r0 →
      (clientRequest env gen heap c req).request.headerParams = some r0) ∧
    (∀ r0, req.headerParams = some r0 → ∀ k, k ≠ requestIDHeader →
      alLookup (hGet (clientRequest env gen heap c req).heap r0) k =
        alLookup (hGet heap r0) k) := by
  rcases clientRequest_state env gen heap c req eng rc hlk with ⟨hreq, hheap, _⟩
  refine ⟨?_, ?_, ?_, ?_, ?_, ?_, ?_, ?_⟩
  · rw [hreq]
    exact (setHeaderParam_frame heap (filledRequest rc req) _).1
  · rw [hreq]
    exact (setHeaderParam_frame heap (filledRequest rc req) _).2.2.2.1
  · rw [hreq]
    exact (setHeaderParam_frame heap (filledRequest rc req) _).2.2.2.2.1
  · rw [hreq]
    exact (setHeaderParam_frame heap (filledRequest rc req) _).2.2.2.2.2
  · intro hm
    rw [hreq, (setHeaderParam_frame heap (filledRequest rc req) _).2.1]
    simp [filledRequest, hm]
  · intro hu
    rw [hreq, (setHeaderParam_frame heap (filledRequest rc req) _).2.2.1]
    simp [filledRequest, hu]
  · intro r0 hp0
    rw [hreq]
    have hfr : (filledRequest rc req).headerParams = some r0 := by
      simp [filledRequest, hp0]
    simp [setHeaderParam, hfr]
  · intro r0 hp0 k hk
    rw [hheap]
    have hfr : (filledRequest rc req).headerParams = some r0 := by
      simp [filledRequest, hp0]
    simp only [setHeaderParam, hfr]
    by_cases hlt : r0 < heap.length
    · rw [hGet_hSet_self heap r0 _ hlt, alLookup_alInsert_ne _ _ _ _ hk]
    · rw [hSet_oob heap r0 _ (Nat.le_of_not_lt hlt)]

/-- C7 amended witness: a non-empty method survives dispatch unchanged. -/
theorem claim_C7_amended_witness :
    (clientRequest envStub ⟨0⟩ [] clientGet
      { name := "svc", method := "POST" }).request.method = "POST" :=
  (claim_C7_amended envStub ⟨0⟩ [] clientGet { name := "svc", method := "POST" }
    (buildHTTPClient rcGet) rcGet rfl).2.2.2.2.1 (by decide)

/-- C4: the header-merge law — a call that supplies a (non-nil) header
mapping keeps that very mapping and the profile statics are not applied to
it at all (its non-correlation bindings are untouched and the profile map
itself, when a distinct object, is untouched); a call that supplies none
receives the profile header map itself by reference; and the static
headers a profile carries are the stringified form of the configured
headers map. -/
theorem claim_C4 (env : Env) (gen : UuidGen) (heap : Heap) (c : Client)
    (req : Request) (eng : HeimdallClient) (rc : RequestConfig)
    (hlk : lookupMapping c.httpClients req.name =
      { heimdallClient := some eng, requestConfig := some rc }) :
    (∀ r0, req.headerParams = some r0 →
      (clientRequest env gen heap c req).request.headerParams = some r0 ∧
      (∀ k, k ≠ requestIDHeader →
        alLookup (hGet (clientRequest env gen heap c req).heap r0) k =
          alLookup (hGet heap r0) k) ∧
      (∀ rp, rc.headers = some rp → rp ≠ r0 →
        hGet (clientRequest env gen heap c req).heap rp = hGet heap rp)) ∧
    (req.headerParams = none → ∀ rp, rc.headers = some rp →
      (clientRequest env gen heap c req).request.headerParams = some rp ∧
      (∀ k, k ≠ requestIDHeader →
        alLookup (hGet (clientRequest env gen heap c req).heap rp) k =
          alLookup (hGet heap rp) k)) ∧
    (∀ gmp nm cm m h0, alLookup cm "headers" = some (.map m) →
      ∃ rp, (NewRequestConfig gmp nm (some cm) h0).1.headers = some rp ∧
        hGet (NewRequestConfig gmp nm (some cm) h0).2 rp = toStringMapString m) := by
  rcases clientRequest_state env gen heap c req eng rc hlk with ⟨hreq, hheap, _⟩
  refine ⟨?_, ?_, ?_⟩
  · intro r0 hp0
    have hfr : (filledRequest rc req).headerParams = some r0 := by
      simp [filledRequest, hp0]
    refine ⟨?_, ?_, ?_⟩
    · rw [hreq]
      simp [setHeaderParam, hfr]
    · intro k hk
      rw [hheap]
      simp only [setHeaderParam, hfr]
      by_cases hlt : r0 < heap.length
      · rw [hGet_hSet_self heap r0 _ hlt, alLookup_alInsert_ne _ _ _ _ hk]
      · rw [hSet_oob heap r0 _ (Nat.le_of_not_lt hlt)]
    · intro rp hrp hne
      rw [hheap]
      simp only [setHeaderParam, hfr]
      exact hGet_hSet_ne heap r0 rp _ hne
  · intro hp0 rp hrp
    have hfr : (filledRequest rc req).headerParams = some rp := by
      simp [filledRequest, hp0, hrp]
    refine ⟨?_, ?_⟩
    · rw [hreq]
      simp [setHeaderParam, hfr]
    · intro k hk
      rw [hheap]
      simp only [setHeaderParam, hfr]
      by_cases hlt : rp < heap.length
      · rw [hGet_hSet_self heap rp _ hlt, alLookup_alInsert_ne _ _ _ _ hk]
      · rw [hSet_oob heap rp _ (Nat.le_of_not_lt hlt)]
  · intro gmp nm cm m h0 hcm
    refine ⟨h0.length, ?_, ?_⟩
    · simp [NewRequestConfig, getConfigOptionMap, hcm, toStringMapE, hAlloc]
    · simp only [NewRequestConfig, getConfigOptionMap, hcm, toStringMapE, hAlloc]
      exact hGet_append_self h0 _

/-- C4 witness: a call supplying its own header map (cell 1) against a
profile with static headers (cell 0) keeps its mapping, its non-correlation
binding and the untouched profile map. -/
theorem claim_C4_witness :
    (clientRequest envStub ⟨0⟩ heapHdr clientHdr
      { name := "svc", headerParams := some 1 }).request.headerParams = some 1 ∧
    alLookup (hGet (clientRequest envStub ⟨0⟩ heapHdr clientHdr
      { name := "svc", headerParams := some 1 }).heap 1) "source" =
      alLookup (hGet heapHdr 1) "source" ∧
    hGet (clientRequest envStub ⟨0⟩ heapHdr clientHdr
      { name := "svc", headerParams := some 1 }).heap 0 = hGet heapHdr 0 := by
  have h := (claim_C4 envStub ⟨0⟩ heapHdr clientHdr
    { name := "svc", headerParams := some 1 } (buildHTTPClient rcHdr) rcHdr rfl).1
    1 rfl
  exact ⟨h.1, h.2.1 "source" (by decide), h.2.2 0 rfl (by decide)⟩

/-- C9: a call with a nil header mapping dispatched against a profile with
static headers receives the profile header map by reference (no copy), the
correlation header is then written into that same map — mutating the
profile — and every later dispatch with a nil header mapping against that
profile is handed the same (mutated) map as its defaults. -/
theorem claim_C9 (env : Env) (gen : UuidGen) (heap : Heap) (c : Client)
    (req : Request) (eng : HeimdallClient) (rc : RequestConfig) (rp : Nat)
    (hlk : lookupMapping c.httpClients req.name =
      { heimdallClient := some eng, requestConfig := some rc })
    (hreqh : req.headerParams = none)
    (hrch : rc.headers = some rp)
    (hv : rp < heap.length) :
    (clientRequest env gen heap c req).request.headerParams = some rp ∧
    hGet (clientRequest env gen heap c req).heap rp =
      alInsert (hGet heap rp) requestIDHeader (getRequestID req.ctx gen).1 ∧
    alLookup (hGet (clientRequest env gen heap c req).heap rp) requestIDHeader =
      some (getRequestID req.ctx gen).1 ∧
    (∀ env2 gen2 c2 req2 eng2,
      lookupMapping c2.httpClients req2.name =
        { heimdallClient := some eng2, requestConfig := some rc } →
      req2.headerParams = none →
      (clientRequest env2 gen2 (clientRequest env gen heap c req).heap c2
        req2).request.headerParams = some rp) := by
  rcases clientRequest_state env gen heap c req eng rc hlk with ⟨hreq, hheap, _⟩
  have hfr : (filledRequest rc req).headerParams = some rp := by
    simp [filledRequest, hreqh, hrch]
  have hmap : hGet (clientRequest env gen heap c req).heap rp =
      alInsert (hGet heap rp) requestIDHeader (getRequestID req.ctx gen).1 := by
    rw [hheap]
    simp only [setHeaderParam, hfr]
    exact hGet_hSet_self heap rp _ hv
  refine ⟨?_, hmap, ?_, ?_⟩
  · rw [hreq]
    simp [setHeaderParam, hfr]
  · rw [hmap]
    exact alLookup_alInsert_self _ _ _
  · intro env2 gen2 c2 req2 eng2 hlk2 hreq2
    rcases clientRequest_state env2 gen2 _ c2 req2 eng2 rc hlk2 with ⟨hreq2f, _, _⟩
    have hfr2 : (filledRequest rc req2).headerParams = some rp := by
      simp [filledRequest, hreq2, hrch]
    rw [hreq2f]
    simp [setHeaderParam, hfr2]

/-- C9 witness: concrete dispatch with nil call headers against a profile
whose static map lives in cell 0 — the call aliases cell 0 and the cell
now holds the generated correlation id. -/
theorem claim_C9_witness :
    (clientRequest envStub ⟨0⟩ heapHdr clientHdr
      { name := "svc" }).request.headerParams = some 0 ∧
    alLookup (hGet (clientRequest envStub ⟨0⟩ heapHdr clientHdr
      { name := "svc" }).heap 0) requestIDHeader = some (uuidString 0) := by
  have h := claim_C9 envStub ⟨0⟩ heapHdr clientHdr { name := "svc" }
    (buildHTTPClient rcHdr) rcHdr 0 rfl rfl rfl (by decide)
  exact ⟨h.1, h.2.2.1⟩

/-- C5: every dispatched wire request carries the correlation header
exactly once; its value is the context-supplied id when that exists and is
string-typed, and otherwise a freshly drawn identifier (also when the
context is nil), advancing the fresh supply; and a second dispatch that
also draws a fresh identifier carries a different value. -/
theorem claim_C5 (env : Env) (gen : UuidGen) (heap : Heap) (c : Client)
    (req : Request) (eng : HeimdallClient) (rc : RequestConfig)
    (hlk : lookupMapping c.httpClients req.name =
      { heimdallClient := some eng, requestConfig := some rc })
    (hbuild : ∀ m u, env.httpNewRequestFails m u = none)
    (hvreq : ∀ r0, req.headerParams = some r0 → r0 < heap.length)
    (hvrc : ∀ rp, rc.headers = some rp → rp < heap.length)
    (hnreq : ∀ r0, req.headerParams = some r0 → KeysNodup (hGet heap r0))
    (hnrc : ∀ rp, rc.headers = some rp → KeysNodup (hGet heap rp)) :
    ∃ w, (clientRequest env gen heap c req).wire = some w ∧
      hmCount w.headers requestIDHeader = 1 ∧
      (∀ s, ctxStringId req.ctx = some s →
        alLookup w.headers requestIDHeader = some s) ∧
      (ctxStringId req.ctx = none →
        alLookup w.headers requestIDHeader = some (uuidString gen.counter) ∧
        (clientRequest env gen heap c req).gen = ⟨gen.counter + 1⟩) ∧
      (∀ env2 heap2 c2 req2 eng2 rc2 w2,
        lookupMapping c2.httpClients req2.name =
          { heimdallClient := some eng2, requestConfig := some rc2 } →
        (∀ m u, env2.httpNewRequestFails m u = none) →
        (∀ r0, req2.headerParams = some r0 → r0 < heap2.length) →
        (∀ rp, rc2.headers = some rp → rp < heap2.length) →
        ctxStringId req.ctx = none → ctxStringId req2.ctx = none →
        (clientRequest env2 (clientRequest env gen heap c req).gen heap2 c2
          req2).wire = some w2 →
        alLookup w2.headers requestIDHeader ≠
          alLookup w.headers requestIDHeader) := by
  rcases clientRequest_wire env gen heap c req eng rc hlk hbuild hvreq hvrc with
    ⟨w, hw, hwh⟩
  have hgen := (clientRequest_state env gen heap c req eng rc hlk).2.2
  have hnfr : ∀ ref, (filledRequest rc req).headerParams = some ref →
      KeysNodup (hGet heap ref) := by
    intro ref href
    by_cases hp : req.headerParams = none
    · simp [filledRequest, hp] at href
      exact hnrc ref href
    · simp [filledRequest, hp] at href
      exact hnreq ref href
  refine ⟨w, hw, ?_, ?_, ?_, ?_⟩
  · rw [hwh]
    cases hfr : (filledRequest rc req).headerParams with
    | none => simp [finalHeaderMap, hfr, hmCount, List.filter]
    | some ref =>
      simp only [finalHeaderMap, hfr]
      exact hmCount_alInsert_self _ _ _ (hnfr ref hfr)
  · intro s hs
    rw [hwh, (getRequestID_spec req.ctx gen).2 s hs]
    exact finalHeaderMap_lookup heap (filledRequest rc req) s
  · intro hnone
    have hid := (getRequestID_spec req.ctx gen).1 hnone
    constructor
    · rw [hwh, hid]
      exact finalHeaderMap_lookup heap (filledRequest rc req) _
    · rw [hgen, hid]
  · intro env2 heap2 c2 req2 eng2 rc2 w2 hlk2 hbuild2 hv2 hv2' hn1 hn2 hw2
    rcases clientRequest_wire env2 (clientRequest env gen heap c req).gen heap2
      c2 req2 eng2 rc2 hlk2 hbuild2 hv2 hv2' with ⟨w2', hw2', hwh2⟩
    have hweq : w2 = w2' := by
      rw [hw2'] at hw2
      exact (Option.some_inj.mp hw2).symm
    have hgen1 : (clientRequest env gen heap c req).gen = ⟨gen.counter + 1⟩ := by
      rw [hgen, (getRequestID_spec req.ctx gen).1 hn1]
    have hid1 := (getRequestID_spec req.ctx gen).1 hn1
    have hid2 := (getRequestID_spec req2.ctx (⟨gen.counter + 1⟩ : UuidGen)).1 hn2
    rw [hweq, hwh2, hgen1, hid2, hwh, hid1]
    rw [finalHeaderMap_lookup, finalHeaderMap_lookup]
    intro hcontra
    exact uuidString_inj (gen.counter + 1) gen.counter (by omega)
      (Option.some_inj.mp hcontra)

/-- C5 witness: a concrete dispatch with a nil context carries the first
fresh identifier exactly once. -/
theorem claim_C5_witness :
    ∃ w, (clientRequest envStub ⟨0⟩ [] clientGet { name := "svc" }).wire = some w ∧
      hmCount w.headers requestIDHeader = 1 ∧
      alLookup w.headers requestIDHeader = some (uuidString 0) := by
  rcases claim_C5 envStub ⟨0⟩ [] clientGet { name := "svc" }
      (buildHTTPClient rcGet) rcGet rfl (fun _ _ => rfl)
      (fun r0 h => Option.noConfusion h) (fun rp h => Option.noConfusion h)
      (fun r0 h => Option.noConfusion h) (fun rp h => Option.noConfusion h) with
    ⟨w, hw, hcount, _, hfresh, _⟩
  exact ⟨w, hw, hcount, (hfresh rfl).1⟩

end GoHttp
